import Mathlib

/-!
Verification development for the `water-sandbox` SPH fluid simulation.

The Rust source is shallowly embedded over exact rational arithmetic:
`f32` values become `ℚ`, numeric literals are taken at their decimal value,
and `std::f32::consts::PI` becomes the exact rational value of the IEEE-754
single-precision constant (`0x40490FDB`).  Machine-integer quantities
(`u32`) become `ℕ`; where the Rust code guards against overflow
(`checked_next_power_of_two`) the guard is modelled explicitly.

`glam`'s `Vec2::distance` computes a Euclidean distance via `sqrt`, which is
not rational-valued; the passes that consume it are therefore parameterised
by a distance function `d` together with the hypothesis `DistOn d ps` pinning
`d` to the exact Euclidean distance on the particle list at hand.
-/

namespace WaterSandbox

/-- 2D vector with exact rational components (models `glam::Vec2` of `f32`). -/
structure Vec2 where
  x : ℚ
  y : ℚ
deriving DecidableEq, Repr

/-- 3D vector with exact rational components (models `glam::Vec3` of `f32`). -/
structure Vec3 where
  x : ℚ
  y : ℚ
  z : ℚ
deriving DecidableEq, Repr

instance : Add Vec2 where
  add a b := ⟨a.x + b.x, a.y + b.y⟩

instance : Sub Vec2 where
  sub a b := ⟨a.x - b.x, a.y - b.y⟩

instance : Neg Vec2 where
  neg a := ⟨-a.x, -a.y⟩

instance : Zero Vec2 where
  zero := ⟨0, 0⟩

/-- Componentwise multiplication of a vector by a scalar (`Vec2 * f32`). -/
def Vec2.mulScalar (v : Vec2) (s : ℚ) : Vec2 := ⟨v.x * s, v.y * s⟩

/-- Componentwise division of a vector by a scalar (`Vec2 / f32`). -/
def Vec2.divScalar (v : Vec2) (s : ℚ) : Vec2 := ⟨v.x / s, v.y / s⟩

/-- Squared Euclidean distance between two points; rational-valued, used to
specify the (irrational) Euclidean distance exactly. -/
def dist2 (a b : Vec2) : ℚ := (a.x - b.x) ^ 2 + (a.y - b.y) ^ 2

/-- `d` agrees with the exact Euclidean distance on every pair of points of
the list `ps`: it is nonnegative and its square is the squared distance.
This is the specification of `glam`'s `Vec2::distance` restricted to the
pairs a pass actually evaluates. -/
def DistOn (d : Vec2 → Vec2 → ℚ) (ps : List Vec2) : Prop :=
  ∀ a ∈ ps, ∀ b ∈ ps, 0 ≤ d a b ∧ (d a b) ^ 2 = dist2 a b

instance (d : Vec2 → Vec2 → ℚ) (ps : List Vec2) : Decidable (DistOn d ps) := by
  unfold DistOn
  infer_instance

/-- Exact rational value of `std::f32::consts::PI`
(IEEE-754 single `0x40490FDB` = 13176795 / 2^22). -/
def pi32 : ℚ := 13176795 / 4194304

/-- `src/smoothing.rs`: `pub const DENSITY_PADDING: f32 = 0.00001;` -/
def DENSITY_PADDING : ℚ := 1 / 100000

/-- `src/smoothing.rs` / `src/fluid.rs` `smoothing_kernel` (poly6-style):
`0` beyond the radius, else `(radius - distance)^2 * 6 / (π r^4)`. -/
def smoothing_kernel (radius distance : ℚ) : ℚ :=
  if radius < distance then 0
  else
    let volume := 6 / (pi32 * radius ^ 4)
    let v := radius - distance
    v * v * volume

/-- `src/smoothing.rs` / `src/fluid.rs` `smoothing_kernel_near`:
`0` beyond the radius, else `(radius - distance)^3 * 10 / (π r^5)`. -/
def smoothing_kernel_near (radius distance : ℚ) : ℚ :=
  if radius < distance then 0
  else
    let volume := 10 / (pi32 * radius ^ 5)
    let v := radius - distance
    v * v * v * volume

/-- `src/smoothing.rs` / `src/fluid.rs` `smoothing_kernel_derivative`:
`0` beyond the radius, else `(distance - radius) * 12 / (π r^4)`. -/
def smoothing_kernel_derivative (radius distance : ℚ) : ℚ :=
  if radius < distance then 0
  else
    let scale := 12 / (pi32 * radius ^ 4)
    (distance - radius) * scale

/-- `src/smoothing.rs` / `src/fluid.rs` `smoothing_kernel_derivative_near`:
`0` beyond the radius, else `(distance - radius)^2 * 30 / (π r^5)`. -/
def smoothing_kernel_derivative_near (radius distance : ℚ) : ℚ :=
  if radius < distance then 0
  else
    let scale := 30 / (pi32 * radius ^ 5)
    let v := distance - radius
    v * v * scale

/-- `src/smoothing.rs` `smoothing_kernel_viscosity`:
`0` beyond the radius, else `(r^2 - d^2)^3 * 4 / (π r^8)`. -/
def smoothing_kernel_viscosity (radius distance : ℚ) : ℚ :=
  if radius < distance then 0
  else
    let volume := 4 / (pi32 * radius ^ 8)
    let v := radius * radius - distance * distance
    v * v * v * volume

/-- `src/fluid.rs` `convert_density_to_pressure`. -/
def convert_density_to_pressure (density target_density pressure_scalar : ℚ) : ℚ :=
  let density_error := density - target_density
  density_error * pressure_scalar

/-- `src/fluid.rs` `convert_near_density_to_near_pressure`. -/
def convert_near_density_to_near_pressure (near_density near_pressure_scalar : ℚ) : ℚ :=
  near_density * near_pressure_scalar

/-- `src/fluid.rs` `calculate_shared_pressure`. -/
def calculate_shared_pressure (pressure_1 pressure_2 : ℚ) : ℚ :=
  (pressure_1 + pressure_2) / 2

/-- `src/fluid.rs` `FluidParticleStaticProperties` resource. -/
structure FluidParticleStaticProperties where
  radius : ℚ
  collision_damping : ℚ
  mass : ℚ
  smoothing_radius : ℚ
  target_density : ℚ
  pressure_scalar : ℚ
  near_pressure_scalar : ℚ
deriving DecidableEq, Repr

/-- The `Default` impl for `FluidParticleStaticProperties` in `src/fluid.rs`
(PARTICLE_RADIUS = 0.05, PARTICLE_COLLISION_DAMPING = 0.95, PARTICLE_MASS = 1,
PARTICLE_SMOOTHING_RADIUS = 0.1, PARTICLE_TARGET_DENSITY = 6,
PARTICLE_PRESSURE_SCALAR = 10, PARTICLE_NEAR_PRESSURE_SCALAR = 1). -/
def defaultFluidProps : FluidParticleStaticProperties :=
  { radius := 5 / 100
    collision_damping := 95 / 100
    mass := 1
    smoothing_radius := 1 / 10
    target_density := 6
    pressure_scalar := 10
    near_pressure_scalar := 1 }

/-- Output written by the density pass for one particle. -/
structure DensityPressureOut where
  density : ℚ
  near_density : ℚ
  pressure : ℚ
  near_pressure : ℚ
deriving DecidableEq, Repr

/-- `src/fluid.rs` `update_density_and_pressure`, body for one particle with
predicted position `position`; `neighbors` is the list of all particles'
predicted positions (the `neighbor_query`), `d` the distance function. -/
def update_density_and_pressure (props : FluidParticleStaticProperties)
    (d : Vec2 → Vec2 → ℚ) (neighbors : List Vec2) (position : Vec2) :
    DensityPressureOut :=
  let acc := neighbors.foldl
    (fun (acc : ℚ × ℚ) neighbor_position =>
      let distance := d position neighbor_position
      let influence := smoothing_kernel props.smoothing_radius distance
      let new_density := acc.1 + props.mass * influence
      let influence_near := smoothing_kernel_near props.smoothing_radius distance
      let new_near_density := acc.2 + props.mass * influence_near
      (new_density, new_near_density))
    (0, 0)
  { density := acc.1
    near_density := acc.2
    pressure := convert_density_to_pressure acc.1 props.target_density props.pressure_scalar
    near_pressure := convert_near_density_to_near_pressure acc.2 props.near_pressure_scalar }

/-- One entry of the force pass's `neighbor_query` in `src/fluid.rs`
`update_pressure_force`: `(Entity, Density, NearDensity, Pressure,
NearPressure, PredictedPosition)`.  The Bevy `Entity` id is modelled as `ℕ`. -/
structure ForceNeighbor where
  id : ℕ
  density : ℚ
  near_density : ℚ
  pressure : ℚ
  near_pressure : ℚ
  position : Vec2
deriving DecidableEq, Repr

/-- The per-pair direction computation of `update_pressure_force`:
`(position - neighbor_position) / distance * -1` when `distance > 0`,
else the fallback unit vector `Vec2::Y`. -/
def pair_direction (position neighbor_position : Vec2) (distance : ℚ) : Vec2 :=
  if 0 < distance then
    ((position - neighbor_position).divScalar distance).mulScalar (-1)
  else
    ⟨0, 1⟩

/-- Loop body of `src/fluid.rs` `update_pressure_force` for one neighbor
entry `n`: skip the self pair (`particle == neighbor`), else accumulate the
pressure and near-pressure force contributions. -/
def update_pressure_force_step (props : FluidParticleStaticProperties)
    (d : Vec2 → Vec2 → ℚ) (particle : ℕ) (pressure near_pressure : ℚ)
    (position : Vec2) (new_pressure_force : Vec2) (n : ForceNeighbor) : Vec2 :=
  if particle = n.id then new_pressure_force
  else
    let distance := d position n.position
    let direction := pair_direction position n.position distance
    let slope := smoothing_kernel_derivative props.smoothing_radius distance
    let shared_pressure := calculate_shared_pressure pressure n.pressure
    let slope_near := smoothing_kernel_derivative_near props.smoothing_radius distance
    let shared_pressure_near := calculate_shared_pressure near_pressure n.near_pressure
    let acc := new_pressure_force +
      (((direction.mulScalar shared_pressure).mulScalar slope).mulScalar props.mass).divScalar
        n.density
    acc +
      (((direction.mulScalar shared_pressure_near).mulScalar slope_near).mulScalar
        props.mass).divScalar n.near_density

/-- `src/fluid.rs` `update_pressure_force`, body for one particle: `particle`
is its entity id, `pressure`/`near_pressure`/`position` its own fields, and
`neighbors` the full `neighbor_query` list (self included; the loop skips the
entry whose entity equals `particle`). -/
def update_pressure_force (props : FluidParticleStaticProperties)
    (d : Vec2 → Vec2 → ℚ) (particle : ℕ) (pressure near_pressure : ℚ)
    (position : Vec2) (neighbors : List ForceNeighbor) : Vec2 :=
  neighbors.foldl (update_pressure_force_step props d particle pressure near_pressure position) 0

/-- One step of the checked variant: identical arithmetic to
`update_pressure_force_step`, but signals `none` when a division by a
neighbor's zero `density` or `near_density` would occur — the only places
where the `f32` code can create a non-finite value (the `distance = 0`
normalisation is already guarded by the `Vec2::Y` fallback branch). -/
def update_pressure_force_checked_step (props : FluidParticleStaticProperties)
    (d : Vec2 → Vec2 → ℚ) (particle : ℕ) (pressure near_pressure : ℚ)
    (position : Vec2) (acc? : Option Vec2) (n : ForceNeighbor) : Option Vec2 :=
  match acc? with
  | none => none
  | some new_pressure_force =>
    if particle = n.id then some new_pressure_force
    else if n.density = 0 ∨ n.near_density = 0 then none
    else some (update_pressure_force_step props d particle pressure near_pressure position
      new_pressure_force n)

/-- Checked variant of `update_pressure_force`: `some v` means the pass
produces the finite value `v`, i.e. no NaN/Inf is generated by a division
by zero. -/
def update_pressure_force_checked (props : FluidParticleStaticProperties)
    (d : Vec2 → Vec2 → ℚ) (particle : ℕ) (pressure near_pressure : ℚ)
    (position : Vec2) (neighbors : List ForceNeighbor) : Option Vec2 :=
  neighbors.foldl
    (update_pressure_force_checked_step props d particle pressure near_pressure position)
    (some 0)

/-- `src/fluid.rs` `update_velocity_on_collision`, body for one particle.
`ext_min`/`ext_max` are the container extents (`container.get_extents()`);
the function first shrinks them by the particle radius (`rad_vec`), then
clamps each axis independently, reflecting and damping the velocity
component of a crossed axis.  Returns (velocity, position) after the pass. -/
def update_velocity_on_collision (props : FluidParticleStaticProperties)
    (ext_min ext_max : Vec2) (velocity position : Vec2) : Vec2 × Vec2 :=
  let rad_vec : Vec2 := ⟨props.radius, props.radius⟩
  let emin := ext_min + rad_vec
  let emax := ext_max - rad_vec
  let vx_px : ℚ × ℚ :=
    if position.x < emin.x then (velocity.x * (-1 * props.collision_damping), emin.x)
    else if emax.x < position.x then (velocity.x * (-1 * props.collision_damping), emax.x)
    else (velocity.x, position.x)
  let vy_py : ℚ × ℚ :=
    if position.y < emin.y then (velocity.y * (-1 * props.collision_damping), emin.y)
    else if emax.y < position.y then (velocity.y * (-1 * props.collision_damping), emax.y)
    else (velocity.y, position.y)
  (⟨vx_px.1, vy_py.1⟩, ⟨vx_px.2, vy_py.2⟩)

/-- `src/fluid_compute.rs` `FluidWorker::create_initial_index_buffer`:
the identity permutation `0, 1, ..., data_length - 1`. -/
def create_initial_index_buffer (data_length : ℕ) : List ℕ :=
  List.range data_length

/-- `src/fluid_compute.rs` `FluidWorker::create_initial_buffer::<T>`:
`data_length` copies of `T::default()`. -/
def create_initial_buffer (α : Type) [Inhabited α] (data_length : ℕ) : List α :=
  List.replicate data_length default

instance : Inhabited Vec2 := ⟨⟨0, 0⟩⟩

instance : Inhabited Vec3 := ⟨⟨0, 0, 0⟩⟩

/-- The nine GPU-side buffers of the compute worker in `src/fluid_compute.rs`
(`positions`, `densities`, `pressures`, `velocities`, `accelerations`,
`predicted_positions`, `particle_indicies`, `particle_cell_indicies`,
`cell_offsets`). -/
structure WorkerBuffers where
  positions : List Vec3
  densities : List Vec2
  pressures : List Vec2
  velocities : List Vec3
  accelerations : List Vec3
  predicted_positions : List Vec3
  particle_indicies : List ℕ
  particle_cell_indicies : List ℕ
  cell_offsets : List ℕ
deriving DecidableEq, Repr

/-- `src/fluid_compute.rs` `despawn_liquid` (the reset command): overwrites
every worker buffer from `fluid_initials.positions` and freshly-built default
buffers, discarding the previous state `w` entirely. -/
def despawn_liquid (fluid_initials : List Vec3) (w : WorkerBuffers) : WorkerBuffers :=
  let num_particles := fluid_initials.length
  let initial_index_buffer := create_initial_index_buffer num_particles
  let initial_vec2_buffer := create_initial_buffer Vec2 num_particles
  let initial_vec3_buffer := create_initial_buffer Vec3 num_particles
  { w with
    positions := fluid_initials
    densities := initial_vec2_buffer
    pressures := initial_vec2_buffer
    velocities := initial_vec3_buffer
    accelerations := initial_vec3_buffer
    predicted_positions := fluid_initials
    particle_indicies := initial_index_buffer
    particle_cell_indicies := initial_index_buffer
    cell_offsets := initial_index_buffer }

/-- `src/fluid_compute.rs` `WORKGROUP_SIZE`. -/
def WORKGROUP_SIZE : ℕ := 1024

/-- `src/fluid_compute.rs` `FluidStaticProps::get_batch_size`:
`num_particles / WORKGROUP_SIZE`, plus one when the division has a
remainder. -/
def get_batch_size (num_particles : ℕ) : ℕ :=
  let batch_size := num_particles / WORKGROUP_SIZE
  if num_particles % WORKGROUP_SIZE > 0 then batch_size + 1 else batch_size

/-- `src/fluid_compute.rs` `BitSorter` uniform: one compare-exchange pass of
the bitonic network, identified by its `block` (stride) and `dim` (span). -/
structure BitSorter where
  block : ℕ
  dim : ℕ
deriving DecidableEq, Repr

/-- `u32::checked_next_power_of_two`: the least power of two `≥ n` when it is
representable in 32 bits, else `none`.  (Rust returns `Some(1)` for `n = 0`;
`2 ^ Nat.clog 2 n` agrees.) -/
def checked_next_power_of_two (n : ℕ) : Option ℕ :=
  let pot := 2 ^ Nat.clog 2 n
  if pot ≤ 2 ^ 32 - 1 then some pot else none

/-- Inner `while block > 0` loop of `get_bit_sorter_stages`: emits
`(block, dim)`, halving `block`, until it reaches 0.  Totalised with a fuel
argument; fuel 33 covers every `u32` value (at most 32 halvings). -/
def bitonic_inner : ℕ → ℕ → ℕ → List BitSorter
  | 0, _, _ => []
  | fuel + 1, dim, block =>
    if block = 0 then []
    else ⟨block, dim⟩ :: bitonic_inner fuel dim (block / 2)

/-- Outer `while dim <= input_length` loop of `get_bit_sorter_stages`:
for each `dim`, runs the inner loop from `block = dim >> 1`, then doubles
`dim`.  `dim` is a `u32` and the Rust left shift `dim <<= 1` wraps modulo
`2^32` (from `dim = 2^31` it yields 0, which never exceeds `input_length`,
so the loop then spins forever).  The loop is therefore fuel-indexed:
`some stages` means it exits with `stages` within `fuel` iterations, `none`
that it has not exited after `fuel` iterations — `none` at every fuel is
non-termination of the source loop. -/
def bitonic_outer : ℕ → ℕ → ℕ → Option (List BitSorter)
  | 0, _, _ => none
  | fuel + 1, input_length, dim =>
    if dim ≤ input_length then
      Option.map (fun rest => bitonic_inner 33 dim (dim / 2) ++ rest)
        (bitonic_outer fuel input_length (dim * 2 % 2 ^ 32))
    else some []

/-- `src/fluid_compute.rs` `FluidWorker::get_bit_sorter_stages` (the
`workgroups` and `uniform_name` fields of each stage are dispatch plumbing
carrying no algorithmic content and are not modelled): pads `data_length` to
the next power of two when that fits in `u32` (else falls back to
`data_length` itself), then runs the two nested loops from `dim = 2`.
Fuel-indexed through `bitonic_outer`: `some stages` is the function's return
value when its loop exits within `fuel` iterations, `none` that it has not
exited yet. -/
def get_bit_sorter_stages (fuel data_length : ℕ) : Option (List BitSorter) :=
  let input_length :=
    match checked_next_power_of_two data_length with
    | some pot => pot
    | none => data_length
  bitonic_outer fuel input_length 2

/-- The pass list described by the spec: for `m = 2^k`, `dim` ranges over
`2, 4, ..., m` in increasing order and within each `dim` the `block` ranges
over `dim/2, dim/4, ..., 1` in decreasing order. -/
def bitonic_spec_stages (k : ℕ) : List BitSorter :=
  ((List.range k).map (fun i =>
    (List.range (i + 1)).map (fun j => ⟨2 ^ (i - j), 2 ^ (i + 1)⟩))).flatten

/-! ### Componentwise helper lemmas -/

@[simp] theorem Vec2.add_x (a b : Vec2) : (a + b).x = a.x + b.x := rfl

@[simp] theorem Vec2.add_y (a b : Vec2) : (a + b).y = a.y + b.y := rfl

@[simp] theorem Vec2.sub_x (a b : Vec2) : (a - b).x = a.x - b.x := rfl

@[simp] theorem Vec2.sub_y (a b : Vec2) : (a - b).y = a.y - b.y := rfl

@[simp] theorem Vec2.neg_x (a : Vec2) : (-a).x = -a.x := rfl

@[simp] theorem Vec2.neg_y (a : Vec2) : (-a).y = -a.y := rfl

@[simp] theorem Vec2.zero_x : (0 : Vec2).x = 0 := rfl

@[simp] theorem Vec2.zero_y : (0 : Vec2).y = 0 := rfl

@[simp] theorem Vec2.mulScalar_x (v : Vec2) (s : ℚ) : (v.mulScalar s).x = v.x * s := rfl

@[simp] theorem Vec2.mulScalar_y (v : Vec2) (s : ℚ) : (v.mulScalar s).y = v.y * s := rfl

@[simp] theorem Vec2.divScalar_x (v : Vec2) (s : ℚ) : (v.divScalar s).x = v.x / s := rfl

@[simp] theorem Vec2.divScalar_y (v : Vec2) (s : ℚ) : (v.divScalar s).y = v.y / s := rfl

theorem Vec2.ext_iff' (a b : Vec2) : a = b ↔ a.x = b.x ∧ a.y = b.y := by
  constructor
  · intro h; subst h; exact ⟨rfl, rfl⟩
  · intro ⟨h1, h2⟩; cases a; cases b; simp_all

theorem pi32_pos : 0 < pi32 := by norm_num [pi32]

/-! ### Claim C4 -/

/-- C4: for every radius > 0 and every distance > radius, each of the five
kernel functions — `smoothing_kernel`, `smoothing_kernel_derivative`,
`smoothing_kernel_near`, `smoothing_kernel_derivative_near` and
`smoothing_kernel_viscosity` — returns exactly 0. -/
theorem c4_kernels_vanish_beyond_radius (radius distance : ℚ)
    (hr : 0 < radius) (hd : radius < distance) :
    smoothing_kernel radius distance = 0 ∧
    smoothing_kernel_derivative radius distance = 0 ∧
    smoothing_kernel_near radius distance = 0 ∧
    smoothing_kernel_derivative_near radius distance = 0 ∧
    smoothing_kernel_viscosity radius distance = 0 := by
  refine ⟨?_, ?_, ?_, ?_, ?_⟩ <;>
    simp [smoothing_kernel, smoothing_kernel_derivative, smoothing_kernel_near,
      smoothing_kernel_derivative_near, smoothing_kernel_viscosity, hd]

/-- Witness for C4 at radius 1, distance 2. -/
theorem c4_kernels_vanish_beyond_radius_witness :
    (0 : ℚ) < 1 ∧ (1 : ℚ) < 2 ∧
    (smoothing_kernel 1 2 = 0 ∧
     smoothing_kernel_derivative 1 2 = 0 ∧
     smoothing_kernel_near 1 2 = 0 ∧
     smoothing_kernel_derivative_near 1 2 = 0 ∧
     smoothing_kernel_viscosity 1 2 = 0) :=
  ⟨by norm_num, by norm_num,
   c4_kernels_vanish_beyond_radius 1 2 (by norm_num) (by norm_num)⟩

/-! ### Claim C10 -/

/-- C10: for num_particles > 0, `get_batch_size` is the ceiling of
num_particles / 1024: it is the least b with b * 1024 ≥ num_particles, and
every particle index i < num_particles lies in workgroup i / 1024 < b. -/
theorem c10_batch_size_is_ceiling (num_particles : ℕ) (h : 0 < num_particles) :
    get_batch_size num_particles = (num_particles + WORKGROUP_SIZE - 1) / WORKGROUP_SIZE ∧
    num_particles ≤ get_batch_size num_particles * WORKGROUP_SIZE ∧
    (∀ b : ℕ, num_particles ≤ b * WORKGROUP_SIZE → get_batch_size num_particles ≤ b) ∧
    (∀ i : ℕ, i < num_particles → i / WORKGROUP_SIZE < get_batch_size num_particles) := by
  simp only [get_batch_size, WORKGROUP_SIZE]
  refine ⟨?_, ?_, ?_, ?_⟩
  · split <;> omega
  · split <;> omega
  · intro b hb; split <;> omega
  · intro i hi; split <;> omega

/-- Witness for C10 at num_particles = 1500 (batch size 2). -/
theorem c10_batch_size_is_ceiling_witness :
    0 < 1500 ∧
    (get_batch_size 1500 = (1500 + WORKGROUP_SIZE - 1) / WORKGROUP_SIZE ∧
     1500 ≤ get_batch_size 1500 * WORKGROUP_SIZE ∧
     (∀ b : ℕ, 1500 ≤ b * WORKGROUP_SIZE → get_batch_size 1500 ≤ b) ∧
     (∀ i : ℕ, i < 1500 → i / WORKGROUP_SIZE < get_batch_size 1500)) :=
  ⟨by decide, c10_batch_size_is_ceiling 1500 (by decide)⟩

/-! ### Claim C2 -/

/-- C2: for any particle velocity and position, after
`update_velocity_on_collision` the position lies within
[ext_min + radius, ext_max - radius] on every axis, provided those padded
bounds are nonempty on each axis. -/
theorem c2_collision_contains_position (props : FluidParticleStaticProperties)
    (ext_min ext_max velocity position : Vec2)
    (hx : ext_min.x + props.radius ≤ ext_max.x - props.radius)
    (hy : ext_min.y + props.radius ≤ ext_max.y - props.radius) :
    ext_min.x + props.radius ≤
      (update_velocity_on_collision props ext_min ext_max velocity position).2.x ∧
    (update_velocity_on_collision props ext_min ext_max velocity position).2.x ≤
      ext_max.x - props.radius ∧
    ext_min.y + props.radius ≤
      (update_velocity_on_collision props ext_min ext_max velocity position).2.y ∧
    (update_velocity_on_collision props ext_min ext_max velocity position).2.y ≤
      ext_max.y - props.radius := by
  unfold update_velocity_on_collision
  simp only [Vec2.add_x, Vec2.add_y, Vec2.sub_x, Vec2.sub_y]
  split_ifs <;> refine ⟨?_, ?_, ?_, ?_⟩ <;> simp_all <;> linarith

/-- Witness for C2: container [-1,1]², default properties, a particle far
outside at (-5, 2) with velocity (3, 4). -/
theorem c2_collision_contains_position_witness :
    ((⟨-1, -1⟩ : Vec2).x + defaultFluidProps.radius ≤ (⟨1, 1⟩ : Vec2).x - defaultFluidProps.radius) ∧
    ((⟨-1, -1⟩ : Vec2).y + defaultFluidProps.radius ≤ (⟨1, 1⟩ : Vec2).y - defaultFluidProps.radius) ∧
    ((⟨-1, -1⟩ : Vec2).x + defaultFluidProps.radius ≤
      (update_velocity_on_collision defaultFluidProps ⟨-1, -1⟩ ⟨1, 1⟩ ⟨3, 4⟩ ⟨-5, 2⟩).2.x ∧
     (update_velocity_on_collision defaultFluidProps ⟨-1, -1⟩ ⟨1, 1⟩ ⟨3, 4⟩ ⟨-5, 2⟩).2.x ≤
      (⟨1, 1⟩ : Vec2).x - defaultFluidProps.radius ∧
     (⟨-1, -1⟩ : Vec2).y + defaultFluidProps.radius ≤
      (update_velocity_on_collision defaultFluidProps ⟨-1, -1⟩ ⟨1, 1⟩ ⟨3, 4⟩ ⟨-5, 2⟩).2.y ∧
     (update_velocity_on_collision defaultFluidProps ⟨-1, -1⟩ ⟨1, 1⟩ ⟨3, 4⟩ ⟨-5, 2⟩).2.y ≤
      (⟨1, 1⟩ : Vec2).y - defaultFluidProps.radius) :=
  ⟨by norm_num [defaultFluidProps], by norm_num [defaultFluidProps],
   c2_collision_contains_position defaultFluidProps ⟨-1, -1⟩ ⟨1, 1⟩ ⟨3, 4⟩ ⟨-5, 2⟩
     (by norm_num [defaultFluidProps]) (by norm_num [defaultFluidProps])⟩

/-! ### Claim C8 -/

/-- C8: the reset command (`despawn_liquid` of the compute worker) is
idempotent and its result is independent of the worker state it overwrites:
issuing reset twice in a row yields the identical particle buffer both
times. -/
theorem c8_reset_idempotent (fluid_initials : List Vec3) (w w' : WorkerBuffers) :
    despawn_liquid fluid_initials (despawn_liquid fluid_initials w) =
      despawn_liquid fluid_initials w ∧
    despawn_liquid fluid_initials w = despawn_liquid fluid_initials w' := by
  unfold despawn_liquid
  exact ⟨rfl, rfl⟩

/-! ### Claim C7 -/

/-- Reflecting with damping factor `c ∈ [0, 1)` does not increase the
absolute value of a velocity component, and strictly decreases it when the
component is nonzero. -/
theorem damped_reflection_abs (v c : ℚ) (h0 : 0 ≤ c) (h1 : c < 1) :
    |v * (-1 * c)| ≤ |v| ∧ (v ≠ 0 → |v * (-1 * c)| < |v|) := by
  have h2 : |v * (-1 * c)| = |v| * c := by
    rw [abs_mul, show (-1 : ℚ) * c = -c by ring, abs_neg, abs_of_nonneg h0]
  constructor
  · nlinarith [abs_nonneg v]
  · intro hv
    have h3 : 0 < |v| := abs_pos.mpr hv
    nlinarith

/-- C7 (amended): for a particle crossing a boundary on some axis, with
0 ≤ collision_damping < 1, the absolute value of the velocity component on
the reflected axis after collision resolution is at most its value before,
and strictly less whenever the pre-collision component is nonzero.  (The
claim's unconditional strict decrease fails when the component is already
zero: `v * -damping = 0 = v`.) -/
theorem c7_amended_wall_bounce_damps (props : FluidParticleStaticProperties)
    (ext_min ext_max velocity position : Vec2)
    (h0 : 0 ≤ props.collision_damping) (h1 : props.collision_damping < 1) :
    ((position.x < (ext_min + (⟨props.radius, props.radius⟩ : Vec2)).x ∨
      (ext_max - (⟨props.radius, props.radius⟩ : Vec2)).x < position.x) →
      |(update_velocity_on_collision props ext_min ext_max velocity position).1.x| ≤
          |velocity.x| ∧
        (velocity.x ≠ 0 →
          |(update_velocity_on_collision props ext_min ext_max velocity position).1.x| <
            |velocity.x|)) ∧
    ((position.y < (ext_min + (⟨props.radius, props.radius⟩ : Vec2)).y ∨
      (ext_max - (⟨props.radius, props.radius⟩ : Vec2)).y < position.y) →
      |(update_velocity_on_collision props ext_min ext_max velocity position).1.y| ≤
          |velocity.y| ∧
        (velocity.y ≠ 0 →
          |(update_velocity_on_collision props ext_min ext_max velocity position).1.y| <
            |velocity.y|)) := by
  constructor
  · simp only [update_velocity_on_collision, Vec2.add_x, Vec2.sub_x]
    intro hcross
    split_ifs with hA hB
    · exact damped_reflection_abs _ _ h0 h1
    · exact damped_reflection_abs _ _ h0 h1
    · exfalso; rcases hcross with h | h <;> linarith
  · simp only [update_velocity_on_collision, Vec2.add_y, Vec2.sub_y]
    intro hcross
    split_ifs with hA hB
    · exact damped_reflection_abs _ _ h0 h1
    · exact damped_reflection_abs _ _ h0 h1
    · exfalso; rcases hcross with h | h <;> linarith

/-- Witness for C7 (amended): default properties, container [-1,1]²,
velocity (3, 4), position (-5, 2) crossing the left and top boundaries. -/
theorem c7_amended_wall_bounce_damps_witness :
    0 ≤ defaultFluidProps.collision_damping ∧ defaultFluidProps.collision_damping < 1 ∧
    ((((⟨-5, 2⟩ : Vec2)).x < ((⟨-1, -1⟩ : Vec2) +
        (⟨defaultFluidProps.radius, defaultFluidProps.radius⟩ : Vec2)).x ∨
      ((⟨1, 1⟩ : Vec2) - (⟨defaultFluidProps.radius, defaultFluidProps.radius⟩ : Vec2)).x <
        ((⟨-5, 2⟩ : Vec2)).x) →
      |(update_velocity_on_collision defaultFluidProps ⟨-1, -1⟩ ⟨1, 1⟩ ⟨3, 4⟩ ⟨-5, 2⟩).1.x| ≤
          |((⟨3, 4⟩ : Vec2)).x| ∧
        (((⟨3, 4⟩ : Vec2)).x ≠ 0 →
          |(update_velocity_on_collision defaultFluidProps ⟨-1, -1⟩ ⟨1, 1⟩ ⟨3, 4⟩ ⟨-5, 2⟩).1.x| <
            |((⟨3, 4⟩ : Vec2)).x|)) ∧
    ((((⟨-5, 2⟩ : Vec2)).y < ((⟨-1, -1⟩ : Vec2) +
        (⟨defaultFluidProps.radius, defaultFluidProps.radius⟩ : Vec2)).y ∨
      ((⟨1, 1⟩ : Vec2) - (⟨defaultFluidProps.radius, defaultFluidProps.radius⟩ : Vec2)).y <
        ((⟨-5, 2⟩ : Vec2)).y) →
      |(update_velocity_on_collision defaultFluidProps ⟨-1, -1⟩ ⟨1, 1⟩ ⟨3, 4⟩ ⟨-5, 2⟩).1.y| ≤
          |((⟨3, 4⟩ : Vec2)).y| ∧
        (((⟨3, 4⟩ : Vec2)).y ≠ 0 →
          |(update_velocity_on_collision defaultFluidProps ⟨-1, -1⟩ ⟨1, 1⟩ ⟨3, 4⟩ ⟨-5, 2⟩).1.y| <
            |((⟨3, 4⟩ : Vec2)).y|)) :=
  ⟨by norm_num [defaultFluidProps], by norm_num [defaultFluidProps],
   c7_amended_wall_bounce_damps defaultFluidProps ⟨-1, -1⟩ ⟨1, 1⟩ ⟨3, 4⟩ ⟨-5, 2⟩
     (by norm_num [defaultFluidProps]) (by norm_num [defaultFluidProps])⟩

/-- C7 counterexample: a particle whose position crosses the left boundary
but whose x-velocity is already 0 keeps |velocity.x| = 0, which is not
strictly less than its previous absolute value 0 — refuting the claim's
unconditional strict decrease. -/
theorem c7_counterexample_zero_velocity :
    ((⟨-2, 0⟩ : Vec2)).x < ((⟨-1, -1⟩ : Vec2) +
        (⟨defaultFluidProps.radius, defaultFluidProps.radius⟩ : Vec2)).x ∧
    0 ≤ defaultFluidProps.collision_damping ∧ defaultFluidProps.collision_damping < 1 ∧
    ¬ (|(update_velocity_on_collision defaultFluidProps ⟨-1, -1⟩ ⟨1, 1⟩ ⟨0, 0⟩ ⟨-2, 0⟩).1.x| <
        |((⟨0, 0⟩ : Vec2)).x|) := by
  norm_num [defaultFluidProps, update_velocity_on_collision]

/-! ### Density-pass lemmas (for C1 and C5) -/

theorem smoothing_kernel_nonneg (r x : ℚ) (hr : 0 < r) : 0 ≤ smoothing_kernel r x := by
  unfold smoothing_kernel
  split
  · exact le_refl 0
  · have h1 : 0 < pi32 * r ^ 4 := mul_pos pi32_pos (pow_pos hr 4)
    have h2 : (0 : ℚ) < 6 / (pi32 * r ^ 4) := div_pos (by norm_num) h1
    exact mul_nonneg (mul_self_nonneg _) h2.le

theorem smoothing_kernel_near_nonneg (r x : ℚ) (hr : 0 < r) :
    0 ≤ smoothing_kernel_near r x := by
  unfold smoothing_kernel_near
  split
  · exact le_refl 0
  · rename_i hx
    have hv : 0 ≤ r - x := by linarith [not_lt.mp hx]
    have h1 : 0 < pi32 * r ^ 5 := mul_pos pi32_pos (pow_pos hr 5)
    have h2 : (0 : ℚ) < 10 / (pi32 * r ^ 5) := div_pos (by norm_num) h1
    exact mul_nonneg (mul_nonneg (mul_nonneg hv hv) hv) h2.le

theorem smoothing_kernel_zero_pos (r : ℚ) (hr : 0 < r) : 0 < smoothing_kernel r 0 := by
  unfold smoothing_kernel
  rw [if_neg (by linarith)]
  have h1 : 0 < pi32 * r ^ 4 := mul_pos pi32_pos (pow_pos hr 4)
  have h2 : (0 : ℚ) < 6 / (pi32 * r ^ 4) := div_pos (by norm_num) h1
  simpa using mul_pos (mul_pos hr hr) h2

theorem smoothing_kernel_near_zero_pos (r : ℚ) (hr : 0 < r) :
    0 < smoothing_kernel_near r 0 := by
  unfold smoothing_kernel_near
  rw [if_neg (by linarith)]
  have h1 : 0 < pi32 * r ^ 5 := mul_pos pi32_pos (pow_pos hr 5)
  have h2 : (0 : ℚ) < 10 / (pi32 * r ^ 5) := div_pos (by norm_num) h1
  simpa using mul_pos (mul_pos (mul_pos hr hr) hr) h2

theorem DistOn.self_eq_zero {d : Vec2 → Vec2 → ℚ} {ns : List Vec2} {p : Vec2}
    (hd : DistOn d ns) (hp : p ∈ ns) : d p p = 0 := by
  obtain ⟨h1, h2⟩ := hd p hp p hp
  have h0 : dist2 p p = 0 := by simp [dist2]
  rw [h0] at h2
  exact pow_eq_zero_iff two_ne_zero |>.mp h2

/-- Unrolling the density-pass fold into the claim's sum form. -/
theorem density_fold_sum (props : FluidParticleStaticProperties)
    (d : Vec2 → Vec2 → ℚ) (pos : Vec2) (ns : List Vec2) : ∀ a b : ℚ,
    (List.foldl
      (fun (acc : ℚ × ℚ) neighbor_position =>
        let distance := d pos neighbor_position
        let influence := smoothing_kernel props.smoothing_radius distance
        let new_density := acc.1 + props.mass * influence
        let influence_near := smoothing_kernel_near props.smoothing_radius distance
        let new_near_density := acc.2 + props.mass * influence_near
        (new_density, new_near_density))
      (a, b) ns) =
    (a + props.mass *
        (ns.map (fun q => smoothing_kernel props.smoothing_radius (d pos q))).sum,
     b + props.mass *
        (ns.map (fun q => smoothing_kernel_near props.smoothing_radius (d pos q))).sum) := by
  induction ns with
  | nil => intro a b; simp
  | cons hd tl ih =>
    intro a b
    simp only [List.foldl_cons, List.map_cons, List.sum_cons]
    rw [ih]
    refine Prod.ext ?_ ?_ <;> dsimp only <;> ring

/-- The density pass equals the claim's sum form (no padding term). -/
theorem update_density_eq_sum (props : FluidParticleStaticProperties)
    (d : Vec2 → Vec2 → ℚ) (ns : List Vec2) (pos : Vec2) :
    (update_density_and_pressure props d ns pos).density =
      props.mass *
        (ns.map (fun q => smoothing_kernel props.smoothing_radius (d pos q))).sum ∧
    (update_density_and_pressure props d ns pos).near_density =
      props.mass *
        (ns.map (fun q => smoothing_kernel_near props.smoothing_radius (d pos q))).sum := by
  unfold update_density_and_pressure
  rw [density_fold_sum props d pos ns 0 0]
  constructor <;> simp

/-- Lower bound of the density pass by the self term. -/
theorem update_density_self_bound (props : FluidParticleStaticProperties)
    (d : Vec2 → Vec2 → ℚ) (ns : List Vec2) (p : Vec2)
    (hd : DistOn d ns) (hp : p ∈ ns) (hm : 0 < props.mass)
    (hr : 0 < props.smoothing_radius) :
    props.mass * smoothing_kernel props.smoothing_radius 0 ≤
      (update_density_and_pressure props d ns p).density ∧
    props.mass * smoothing_kernel_near props.smoothing_radius 0 ≤
      (update_density_and_pressure props d ns p).near_density := by
  obtain ⟨h1, h2⟩ := update_density_eq_sum props d ns p
  rw [h1, h2]
  have hself := hd.self_eq_zero hp
  constructor
  · have hmem : smoothing_kernel props.smoothing_radius (d p p) ∈
        ns.map (fun q => smoothing_kernel props.smoothing_radius (d p q)) :=
      List.mem_map_of_mem _ hp
    have hle : smoothing_kernel props.smoothing_radius (d p p) ≤
        (ns.map (fun q => smoothing_kernel props.smoothing_radius (d p q))).sum := by
      refine List.single_le_sum ?_ _ hmem
      intro a ha
      obtain ⟨q, _, rfl⟩ := List.mem_map.mp ha
      exact smoothing_kernel_nonneg _ _ hr
    rw [hself] at hle
    exact mul_le_mul_of_nonneg_left hle hm.le
  · have hmem : smoothing_kernel_near props.smoothing_radius (d p p) ∈
        ns.map (fun q => smoothing_kernel_near props.smoothing_radius (d p q)) :=
      List.mem_map_of_mem _ hp
    have hle : smoothing_kernel_near props.smoothing_radius (d p p) ≤
        (ns.map (fun q => smoothing_kernel_near props.smoothing_radius (d p q))).sum := by
      refine List.single_le_sum ?_ _ hmem
      intro a ha
      obtain ⟨q, _, rfl⟩ := List.mem_map.mp ha
      exact smoothing_kernel_near_nonneg _ _ hr
    rw [hself] at hle
    exact mul_le_mul_of_nonneg_left hle hm.le

/-! ### Claim C1 -/

/-- C1 (amended): after the density pass, density equals mass times the sum
over all particles of the poly6 kernel of the pairwise distance of predicted
positions — with NO `DENSITY_PADDING` term added (the CPU pass in
`src/fluid.rs` does not add the padding) — and likewise near_density with the
near kernel.  The density floor is instead provided by the self term: both
outputs are at least `mass * kernel(r, 0)`, and for the default parameters
this exceeds `DENSITY_PADDING`, so `density ≥ DENSITY_PADDING` and
`near_density ≥ DENSITY_PADDING` still hold there. -/
theorem c1_amended_density_sum_no_padding (props : FluidParticleStaticProperties)
    (d : Vec2 → Vec2 → ℚ) (ns : List Vec2) (p : Vec2)
    (hd : DistOn d ns) (hp : p ∈ ns) (hm : 0 < props.mass)
    (hr : 0 < props.smoothing_radius) :
    (update_density_and_pressure props d ns p).density =
      props.mass *
        (ns.map (fun q => smoothing_kernel props.smoothing_radius (d p q))).sum ∧
    (update_density_and_pressure props d ns p).near_density =
      props.mass *
        (ns.map (fun q => smoothing_kernel_near props.smoothing_radius (d p q))).sum ∧
    props.mass * smoothing_kernel props.smoothing_radius 0 ≤
      (update_density_and_pressure props d ns p).density ∧
    props.mass * smoothing_kernel_near props.smoothing_radius 0 ≤
      (update_density_and_pressure props d ns p).near_density ∧
    (props = defaultFluidProps →
      DENSITY_PADDING ≤ (update_density_and_pressure props d ns p).density ∧
      DENSITY_PADDING ≤ (update_density_and_pressure props d ns p).near_density) := by
  obtain ⟨h1, h2⟩ := update_density_eq_sum props d ns p
  obtain ⟨h3, h4⟩ := update_density_self_bound props d ns p hd hp hm hr
  refine ⟨h1, h2, h3, h4, ?_⟩
  rintro rfl
  constructor
  · refine le_trans ?_ h3
    norm_num [defaultFluidProps, smoothing_kernel, pi32, DENSITY_PADDING]
  · refine le_trans ?_ h4
    norm_num [defaultFluidProps, smoothing_kernel_near, pi32, DENSITY_PADDING]

/-- Witness for C1 (amended): a single particle at the origin with the
all-zero distance function, default parameters. -/
theorem c1_amended_density_sum_no_padding_witness :
    DistOn (fun _ _ => 0) [⟨0, 0⟩] ∧ (⟨0, 0⟩ : Vec2) ∈ ([⟨0, 0⟩] : List Vec2) ∧
    0 < defaultFluidProps.mass ∧ 0 < defaultFluidProps.smoothing_radius ∧
    ((update_density_and_pressure defaultFluidProps (fun _ _ => 0) [⟨0, 0⟩] ⟨0, 0⟩).density =
      defaultFluidProps.mass *
        (([⟨0, 0⟩] : List Vec2).map (fun q =>
          smoothing_kernel defaultFluidProps.smoothing_radius 0)).sum ∧
     (update_density_and_pressure defaultFluidProps (fun _ _ => 0) [⟨0, 0⟩] ⟨0, 0⟩).near_density =
      defaultFluidProps.mass *
        (([⟨0, 0⟩] : List Vec2).map (fun q =>
          smoothing_kernel_near defaultFluidProps.smoothing_radius 0)).sum ∧
     defaultFluidProps.mass * smoothing_kernel defaultFluidProps.smoothing_radius 0 ≤
      (update_density_and_pressure defaultFluidProps (fun _ _ => 0) [⟨0, 0⟩] ⟨0, 0⟩).density ∧
     defaultFluidProps.mass * smoothing_kernel_near defaultFluidProps.smoothing_radius 0 ≤
      (update_density_and_pressure defaultFluidProps (fun _ _ => 0) [⟨0, 0⟩] ⟨0, 0⟩).near_density ∧
     (defaultFluidProps = defaultFluidProps →
      DENSITY_PADDING ≤
        (update_density_and_pressure defaultFluidProps (fun _ _ => 0) [⟨0, 0⟩] ⟨0, 0⟩).density ∧
      DENSITY_PADDING ≤
        (update_density_and_pressure defaultFluidProps (fun _ _ => 0) [⟨0, 0⟩] ⟨0, 0⟩).near_density)) :=
  ⟨by simp [DistOn, dist2], by simp, by norm_num [defaultFluidProps],
   by norm_num [defaultFluidProps],
   c1_amended_density_sum_no_padding defaultFluidProps (fun _ _ => 0) [⟨0, 0⟩] ⟨0, 0⟩
     (by simp [DistOn, dist2]) (by simp) (by norm_num [defaultFluidProps])
     (by norm_num [defaultFluidProps])⟩

/-- C1 counterexample: for a single particle at the origin with default
parameters, the code's density differs from the claim's
`mass * Σ poly6 + DENSITY_PADDING` by exactly the padding term, which the
CPU pass never adds. -/
theorem c1_counterexample_no_padding_added :
    DistOn (fun _ _ => 0) [⟨0, 0⟩] ∧
    (update_density_and_pressure defaultFluidProps (fun _ _ => 0) [⟨0, 0⟩] ⟨0, 0⟩).density ≠
      defaultFluidProps.mass *
        (([⟨0, 0⟩] : List Vec2).map (fun q =>
          smoothing_kernel defaultFluidProps.smoothing_radius
            ((fun _ _ => (0 : ℚ)) (⟨0, 0⟩ : Vec2) q))).sum +
        DENSITY_PADDING := by
  constructor
  · simp [DistOn, dist2]
  · norm_num [update_density_and_pressure, defaultFluidProps, smoothing_kernel,
      smoothing_kernel_near, pi32, DENSITY_PADDING,
      convert_density_to_pressure, convert_near_density_to_near_pressure]

/-! ### Claim C5 -/

/-- C5: the density pass includes a particle's own contribution — its
self distance is 0, the self term is `mass * poly6(r, 0) > 0`, the total
density is bounded below by the self term, and an isolated particle gets
exactly the self term, hence strictly positive density. -/
theorem c5_self_contribution (props : FluidParticleStaticProperties)
    (d : Vec2 → Vec2 → ℚ) (ns : List Vec2) (p : Vec2)
    (hd : DistOn d ns) (hp : p ∈ ns) (hm : 0 < props.mass)
    (hr : 0 < props.smoothing_radius) :
    d p p = 0 ∧
    0 < props.mass * smoothing_kernel props.smoothing_radius 0 ∧
    props.mass * smoothing_kernel props.smoothing_radius 0 ≤
      (update_density_and_pressure props d ns p).density ∧
    (update_density_and_pressure props d [p] p).density =
      props.mass * smoothing_kernel props.smoothing_radius 0 ∧
    0 < (update_density_and_pressure props d [p] p).density := by
  have hself : d p p = 0 := hd.self_eq_zero hp
  have hpos : 0 < props.mass * smoothing_kernel props.smoothing_radius 0 :=
    mul_pos hm (smoothing_kernel_zero_pos _ hr)
  have hsingle : (update_density_and_pressure props d [p] p).density =
      props.mass * smoothing_kernel props.smoothing_radius 0 := by
    obtain ⟨h1, _⟩ := update_density_eq_sum props d [p] p
    rw [h1]
    simp [hself]
  refine ⟨hself, hpos, ?_, hsingle, ?_⟩
  · exact (update_density_self_bound props d ns p hd hp hm hr).1
  · rw [hsingle]; exact hpos

/-- Witness for C5: a single particle at the origin with the all-zero
distance function, default parameters. -/
theorem c5_self_contribution_witness :
    DistOn (fun _ _ => 0) [⟨0, 0⟩] ∧ (⟨0, 0⟩ : Vec2) ∈ ([⟨0, 0⟩] : List Vec2) ∧
    0 < defaultFluidProps.mass ∧ 0 < defaultFluidProps.smoothing_radius ∧
    ((fun (_ _ : Vec2) => (0 : ℚ)) ⟨0, 0⟩ ⟨0, 0⟩ = 0 ∧
     0 < defaultFluidProps.mass * smoothing_kernel defaultFluidProps.smoothing_radius 0 ∧
     defaultFluidProps.mass * smoothing_kernel defaultFluidProps.smoothing_radius 0 ≤
      (update_density_and_pressure defaultFluidProps (fun _ _ => 0) [⟨0, 0⟩] ⟨0, 0⟩).density ∧
     (update_density_and_pressure defaultFluidProps (fun _ _ => 0) [⟨0, 0⟩] ⟨0, 0⟩).density =
      defaultFluidProps.mass * smoothing_kernel defaultFluidProps.smoothing_radius 0 ∧
     0 < (update_density_and_pressure defaultFluidProps (fun _ _ => 0) [⟨0, 0⟩] ⟨0, 0⟩).density) :=
  ⟨by simp [DistOn, dist2], by simp, by norm_num [defaultFluidProps],
   by norm_num [defaultFluidProps],
   c5_self_contribution defaultFluidProps (fun _ _ => 0) [⟨0, 0⟩] ⟨0, 0⟩
     (by simp [DistOn, dist2]) (by simp) (by norm_num [defaultFluidProps])
     (by norm_num [defaultFluidProps])⟩

/-! ### Claim C6 -/

/-- With nonzero neighbor densities, the checked force fold never signals a
division by zero and computes the plain fold's value. -/
theorem checked_fold_eq_some (props : FluidParticleStaticProperties)
    (d : Vec2 → Vec2 → ℚ) (particle : ℕ) (pressure near_pressure : ℚ)
    (position : Vec2) :
    ∀ (neighbors : List ForceNeighbor) (acc : Vec2),
      (∀ n ∈ neighbors, 0 < n.density ∧ 0 < n.near_density) →
      neighbors.foldl
          (update_pressure_force_checked_step props d particle pressure near_pressure position)
          (some acc) =
        some (neighbors.foldl
          (update_pressure_force_step props d particle pressure near_pressure position) acc) := by
  intro neighbors
  induction neighbors with
  | nil => intro acc _; simp
  | cons n tl ih =>
    intro acc hpos
    have hn := hpos n (List.mem_cons_self n tl)
    have htl : ∀ m ∈ tl, 0 < m.density ∧ 0 < m.near_density :=
      fun m hm => hpos m (List.mem_cons_of_mem n hm)
    simp only [List.foldl_cons]
    have hstep : update_pressure_force_checked_step props d particle pressure near_pressure
        position (some acc) n =
        some (update_pressure_force_step props d particle pressure near_pressure position
          acc n) := by
      unfold update_pressure_force_checked_step
      dsimp only
      by_cases h : particle = n.id
      · rw [if_pos h]
        unfold update_pressure_force_step
        rw [if_pos h]
      · rw [if_neg h, if_neg (by push_neg; exact ⟨hn.1.ne', hn.2.ne'⟩)]
    rw [hstep]
    exact ih _ htl

/-- Entries whose entity id equals the particle's own id contribute nothing
to the force fold: the fold over a list equals the fold over the list with
all self entries filtered out. -/
theorem force_fold_skips_self (props : FluidParticleStaticProperties)
    (d : Vec2 → Vec2 → ℚ) (particle : ℕ) (pressure near_pressure : ℚ)
    (position : Vec2) :
    ∀ (neighbors : List ForceNeighbor) (acc : Vec2),
      neighbors.foldl
          (update_pressure_force_step props d particle pressure near_pressure position) acc =
        (neighbors.filter (fun n => particle != n.id)).foldl
          (update_pressure_force_step props d particle pressure near_pressure position) acc := by
  intro neighbors
  induction neighbors with
  | nil => intro acc; rfl
  | cons n tl ih =>
    intro acc
    by_cases h : particle = n.id
    · have hstep : update_pressure_force_step props d particle pressure near_pressure position
          acc n = acc := by
        unfold update_pressure_force_step
        rw [if_pos h]
      simp only [List.foldl_cons, List.filter_cons, hstep]
      rw [if_neg (by simp [h])]
      exact ih acc
    · simp only [List.foldl_cons, List.filter_cons]
      rw [if_pos (by simp [h])]
      simp only [List.foldl_cons]
      exact ih _

/-- C6: the force pass skips self pairs (they contribute nothing), uses the
fixed fallback unit vector +Y for a pair at distance exactly 0, and, given
neighbors with positive densities and near-densities, never produces a NaN:
the checked evaluation returns `some` of the plain value. -/
theorem c6_force_pass_no_nan (props : FluidParticleStaticProperties)
    (d : Vec2 → Vec2 → ℚ) (particle : ℕ) (pressure near_pressure : ℚ)
    (position : Vec2) (neighbors : List ForceNeighbor)
    (hpos : ∀ n ∈ neighbors, 0 < n.density ∧ 0 < n.near_density) :
    update_pressure_force_checked props d particle pressure near_pressure position neighbors =
      some (update_pressure_force props d particle pressure near_pressure position neighbors) ∧
    (∀ a b : Vec2, pair_direction a b 0 = ⟨0, 1⟩) ∧
    update_pressure_force props d particle pressure near_pressure position neighbors =
      update_pressure_force props d particle pressure near_pressure position
        (neighbors.filter (fun n => particle != n.id)) := by
  refine ⟨?_, ?_, ?_⟩
  · exact checked_fold_eq_some props d particle pressure near_pressure position neighbors 0 hpos
  · intro a b; simp [pair_direction]
  · exact force_fold_skips_self props d particle pressure near_pressure position neighbors 0

/-- Witness for C6: particle 0 at the origin against a self entry and one
real neighbor with unit densities. -/
theorem c6_force_pass_no_nan_witness :
    (∀ n ∈ ([⟨0, 1, 1, 2, 3, ⟨0, 0⟩⟩, ⟨1, 1, 1, 2, 3, ⟨0, 0⟩⟩] : List ForceNeighbor),
      0 < n.density ∧ 0 < n.near_density) ∧
    (update_pressure_force_checked defaultFluidProps (fun _ _ => 0) 0 2 3 ⟨0, 0⟩
        [⟨0, 1, 1, 2, 3, ⟨0, 0⟩⟩, ⟨1, 1, 1, 2, 3, ⟨0, 0⟩⟩] =
      some (update_pressure_force defaultFluidProps (fun _ _ => 0) 0 2 3 ⟨0, 0⟩
        [⟨0, 1, 1, 2, 3, ⟨0, 0⟩⟩, ⟨1, 1, 1, 2, 3, ⟨0, 0⟩⟩]) ∧
     (∀ a b : Vec2, pair_direction a b 0 = ⟨0, 1⟩) ∧
     update_pressure_force defaultFluidProps (fun _ _ => 0) 0 2 3 ⟨0, 0⟩
        [⟨0, 1, 1, 2, 3, ⟨0, 0⟩⟩, ⟨1, 1, 1, 2, 3, ⟨0, 0⟩⟩] =
      update_pressure_force defaultFluidProps (fun _ _ => 0) 0 2 3 ⟨0, 0⟩
        (([⟨0, 1, 1, 2, 3, ⟨0, 0⟩⟩, ⟨1, 1, 1, 2, 3, ⟨0, 0⟩⟩] : List ForceNeighbor).filter
          (fun n => (0 : ℕ) != n.id))) :=
  ⟨by norm_num [List.forall_mem_cons],
   c6_force_pass_no_nan defaultFluidProps (fun _ _ => 0) 0 2 3 ⟨0, 0⟩
     [⟨0, 1, 1, 2, 3, ⟨0, 0⟩⟩, ⟨1, 1, 1, 2, 3, ⟨0, 0⟩⟩]
     (by norm_num [List.forall_mem_cons])⟩

/-! ### Claim C3 -/

/-- C3 (amended): for a symmetric two-particle system — particles at opposite
positions `p` and `-p` with equal densities, near-densities, pressures and
near-pressures — the pressure force computed for particle A equals the
negation of the force computed for particle B, provided the two positions
are distinct (`p ≠ 0`; at `p = 0` both coincident particles receive the same
fallback +Y direction and the two forces are equal instead of opposite). -/
theorem c3_amended_pairwise_force_antisymmetric (props : FluidParticleStaticProperties)
    (d : Vec2 → Vec2 → ℚ) (p : Vec2) (dens ndens pr npr : ℚ)
    (hd : DistOn d [p, -p]) (hp : p ≠ ⟨0, 0⟩) :
    update_pressure_force props d 0 pr npr p
        [⟨0, dens, ndens, pr, npr, p⟩, ⟨1, dens, ndens, pr, npr, -p⟩] =
      - update_pressure_force props d 1 pr npr (-p)
        [⟨0, dens, ndens, pr, npr, p⟩, ⟨1, dens, ndens, pr, npr, -p⟩] := by
  have hmem1 : p ∈ [p, -p] := List.mem_cons_self _ _
  have hmem2 : -p ∈ [p, -p] := List.mem_cons_of_mem _ (List.mem_cons_self _ _)
  obtain ⟨hAB0, hAB2⟩ := hd p hmem1 (-p) hmem2
  obtain ⟨hBA0, hBA2⟩ := hd (-p) hmem2 p hmem1
  have hsym : dist2 (-p) p = dist2 p (-p) := by
    simp only [dist2, Vec2.neg_x, Vec2.neg_y]; ring
  have heq : d (-p) p = d p (-p) := by nlinarith [hAB2, hBA2, hsym]
  have hxy : p.x ≠ 0 ∨ p.y ≠ 0 := by
    by_contra hc
    push_neg at hc
    exact hp ((Vec2.ext_iff' p ⟨0, 0⟩).mpr ⟨hc.1, hc.2⟩)
  have hppos : 0 < dist2 p (-p) := by
    have hx2 : 0 ≤ p.x ^ 2 := sq_nonneg _
    have hy2 : 0 ≤ p.y ^ 2 := sq_nonneg _
    rcases hxy with h | h
    · have := pow_two_pos_of_ne_zero h
      simp only [dist2, Vec2.neg_x, Vec2.neg_y]
      nlinarith
    · have := pow_two_pos_of_ne_zero h
      simp only [dist2, Vec2.neg_x, Vec2.neg_y]
      nlinarith
  have hdpos : 0 < d p (-p) := by nlinarith [hAB0, hAB2, hppos]
  simp only [update_pressure_force, List.foldl_cons, List.foldl_nil,
    update_pressure_force_step]
  norm_num
  rw [heq]
  simp only [pair_direction, if_pos hdpos]
  rw [Vec2.ext_iff']
  constructor <;>
    simp only [Vec2.add_x, Vec2.add_y, Vec2.sub_x, Vec2.sub_y, Vec2.neg_x, Vec2.neg_y,
      Vec2.mulScalar_x, Vec2.mulScalar_y, Vec2.divScalar_x, Vec2.divScalar_y,
      Vec2.zero_x, Vec2.zero_y] <;>
    ring

/-- Witness for C3 (amended): particles at (1/5, 0) and (-1/5, 0), distance
2/5, unit densities, with the axis-aligned exact distance function. -/
theorem c3_amended_pairwise_force_antisymmetric_witness :
    DistOn (fun a b => |a.x - b.x| + |a.y - b.y|) [⟨1/5, 0⟩, -(⟨1/5, 0⟩ : Vec2)] ∧
    (⟨1/5, 0⟩ : Vec2) ≠ ⟨0, 0⟩ ∧
    update_pressure_force defaultFluidProps (fun a b => |a.x - b.x| + |a.y - b.y|) 0 2 3 ⟨1/5, 0⟩
        [⟨0, 1, 1, 2, 3, ⟨1/5, 0⟩⟩, ⟨1, 1, 1, 2, 3, -(⟨1/5, 0⟩ : Vec2)⟩] =
      - update_pressure_force defaultFluidProps (fun a b => |a.x - b.x| + |a.y - b.y|) 1 2 3
        (-(⟨1/5, 0⟩ : Vec2))
        [⟨0, 1, 1, 2, 3, ⟨1/5, 0⟩⟩, ⟨1, 1, 1, 2, 3, -(⟨1/5, 0⟩ : Vec2)⟩] :=
  ⟨by
     intro a ha b hb
     simp only [List.mem_cons, List.not_mem_nil, or_false] at ha hb
     rcases ha with rfl | rfl <;> rcases hb with rfl | rfl <;>
       norm_num [dist2],
   by norm_num [Vec2.ext_iff'],
   c3_amended_pairwise_force_antisymmetric defaultFluidProps
     (fun a b => |a.x - b.x| + |a.y - b.y|) ⟨1/5, 0⟩ 1 1 2 3
     (by
     intro a ha b hb
     simp only [List.mem_cons, List.not_mem_nil, or_false] at ha hb
     rcases ha with rfl | rfl <;> rcases hb with rfl | rfl <;>
       norm_num [dist2])
     (by norm_num [Vec2.ext_iff'])⟩

/-- C3 counterexample: at `p = 0` the two particles coincide; the system is
formally symmetric (positions 0 and -0, equal scalars) yet both forces use
the same +Y fallback direction, so the force on A is NOT the negation of
the force on B. -/
theorem c3_counterexample_coincident_particles :
    DistOn (fun _ _ => 0) [⟨0, 0⟩, -(⟨0, 0⟩ : Vec2)] ∧
    ¬ (update_pressure_force defaultFluidProps (fun _ _ => 0) 0 0 1 ⟨0, 0⟩
          [⟨0, 1, 1, 0, 1, ⟨0, 0⟩⟩, ⟨1, 1, 1, 0, 1, -(⟨0, 0⟩ : Vec2)⟩] =
        - update_pressure_force defaultFluidProps (fun _ _ => 0) 1 0 1 (-(⟨0, 0⟩ : Vec2))
          [⟨0, 1, 1, 0, 1, ⟨0, 0⟩⟩, ⟨1, 1, 1, 0, 1, -(⟨0, 0⟩ : Vec2)⟩]) := by
  constructor
  · norm_num [DistOn, dist2, List.forall_mem_cons]
  · norm_num [update_pressure_force, update_pressure_force_step, pair_direction,
      calculate_shared_pressure, smoothing_kernel_derivative,
      smoothing_kernel_derivative_near, defaultFluidProps, pi32, Vec2.ext_iff']

/-! ### Claim C9 -/

theorem bitonic_inner_zero (fuel dim : ℕ) : bitonic_inner fuel dim 0 = [] := by
  cases fuel <;> simp [bitonic_inner]

/-- The inner loop from `block = 2^i` emits blocks `2^i, 2^(i-1), ..., 1`. -/
theorem bitonic_inner_pow (dim : ℕ) :
    ∀ (i fuel : ℕ), i < fuel →
      bitonic_inner fuel dim (2 ^ i) =
        (List.range (i + 1)).map (fun j => ⟨2 ^ (i - j), dim⟩) := by
  intro i
  induction i with
  | zero =>
    intro fuel hf
    obtain ⟨f, rfl⟩ : ∃ f, fuel = f + 1 := ⟨fuel - 1, by omega⟩
    simp [bitonic_inner, bitonic_inner_zero]
  | succ i ih =>
    intro fuel hf
    obtain ⟨f, rfl⟩ : ∃ f, fuel = f + 1 := ⟨fuel - 1, by omega⟩
    have hhalf : 2 ^ (i + 1) / 2 = 2 ^ i := by
      rw [pow_succ, Nat.mul_div_cancel _ (by norm_num)]
    have hne : (2 : ℕ) ^ (i + 1) ≠ 0 := pow_ne_zero _ two_ne_zero
    conv_lhs => rw [bitonic_inner]
    rw [if_neg hne, hhalf, ih f (by omega)]
    conv_rhs => rw [List.range_succ_eq_map]
    simp [Function.comp, Nat.add_sub_add_right]

/-- The outer loop from `dim = 2^(t+1)` over a power-of-two input length
`2^k`, `k ≤ 30` (then no intermediate `dim` reaches the wrapping value
`2^31`), exits and emits, for each exponent from `t` to `k-1`, the full
inner block list. -/
theorem bitonic_outer_pow (k : ℕ) (hk : k ≤ 30) :
    ∀ (m t fuel : ℕ), m < fuel → t + m = k →
      bitonic_outer fuel (2 ^ k) (2 ^ (t + 1)) =
        some (((List.range m).map (fun a =>
          (List.range (t + a + 1)).map
            (fun j => (⟨2 ^ (t + a - j), 2 ^ (t + a + 1)⟩ : BitSorter)))).flatten) := by
  intro m
  induction m with
  | zero =>
    intro t fuel hf ht
    obtain ⟨f, rfl⟩ : ∃ f, fuel = f + 1 := ⟨fuel - 1, by omega⟩
    have hgt : ¬ (2 ^ (t + 1) ≤ 2 ^ k) := by
      have : (2 : ℕ) ^ k < 2 ^ (t + 1) :=
        Nat.pow_lt_pow_right (by norm_num) (by omega)
      omega
    simp [bitonic_outer, hgt]
  | succ m ih =>
    intro t fuel hf ht
    obtain ⟨f, rfl⟩ : ∃ f, fuel = f + 1 := ⟨fuel - 1, by omega⟩
    have hle : 2 ^ (t + 1) ≤ 2 ^ k :=
      Nat.pow_le_pow_right (by norm_num) (by omega)
    have hhalf : 2 ^ (t + 1) / 2 = 2 ^ t := by
      rw [pow_succ, Nat.mul_div_cancel _ (by norm_num)]
    have hdouble : 2 ^ (t + 1) * 2 % 2 ^ 32 = 2 ^ (t + 2) := by
      rw [show (2 : ℕ) ^ (t + 1) * 2 = 2 ^ (t + 2) by ring,
        Nat.mod_eq_of_lt (Nat.pow_lt_pow_right (by norm_num) (by omega))]
    conv_lhs => rw [bitonic_outer]
    rw [if_pos hle, hhalf, hdouble, bitonic_inner_pow _ t 33 (by omega),
      ih (t + 1) f (by omega) (by omega)]
    rw [Option.map_some']
    congr 1
    conv_rhs => rw [List.range_succ_eq_map]
    have h1 : ∀ a : ℕ, t + 1 + a = t + (a + 1) := fun a => by omega
    simp only [List.map_cons, List.flatten_cons, h1]
    congr 1
    congr 1
    rw [List.map_map]
    apply List.map_congr_left
    intro a _
    simp [Function.comp]

/-- Once `dim` is 0 or a power of two ≤ 2^31 and `input_length = 2^31`, the
outer loop never exits: the wrapped doubling keeps `dim` in that set and
`dim ≤ input_length` stays true forever (from `dim = 2^31` the `u32` shift
wraps to 0). -/
theorem bitonic_outer_wrap_spins :
    ∀ (fuel dim : ℕ), (dim = 0 ∨ ∃ j, j ≤ 31 ∧ dim = 2 ^ j) →
      bitonic_outer fuel (2 ^ 31) dim = none := by
  intro fuel
  induction fuel with
  | zero => intro dim _; rfl
  | succ f ih =>
    intro dim hP
    have hle : dim ≤ 2 ^ 31 := by
      rcases hP with rfl | ⟨j, hj, rfl⟩
      · exact Nat.zero_le _
      · exact Nat.pow_le_pow_right (by norm_num) hj
    have hP' : dim * 2 % 2 ^ 32 = 0 ∨ ∃ j, j ≤ 31 ∧ dim * 2 % 2 ^ 32 = 2 ^ j := by
      rcases hP with rfl | ⟨j, hj, rfl⟩
      · left; simp
      · by_cases hj31 : j = 31
        · left
          subst hj31
          rw [show (2 : ℕ) ^ 31 * 2 = 2 ^ 32 by ring, Nat.mod_self]
        · right
          refine ⟨j + 1, by omega, ?_⟩
          rw [show (2 : ℕ) ^ j * 2 = 2 ^ (j + 1) by ring,
            Nat.mod_eq_of_lt (Nat.pow_lt_pow_right (by norm_num) (by omega))]
    conv_lhs => rw [bitonic_outer]
    rw [if_pos hle, ih _ hP']
    rfl

/-- Gauss sum for the stage count: `Σ_{i<k} (i+1) = k (k+1) / 2`. -/
theorem range_succ_sum_gauss : ∀ k : ℕ,
    ((List.range k).map (fun i => i + 1)).sum = k * (k + 1) / 2 := by
  intro k
  induction k with
  | zero => simp
  | succ k ih =>
    rw [List.range_succ, List.map_append, List.sum_append]
    simp only [List.map_cons, List.map_nil, List.sum_cons, List.sum_nil, ih]
    have h2 : 2 ∣ k * (k + 1) := Nat.even_mul_succ_self k |>.two_dvd
    have h3 : (k + 1) * (k + 1 + 1) = k * (k + 1) + 2 * (k + 1) := by ring
    rw [h3]
    omega

theorem bitonic_spec_stages_length (k : ℕ) :
    (bitonic_spec_stages k).length = k * (k + 1) / 2 := by
  unfold bitonic_spec_stages
  rw [List.length_flatten, List.map_map]
  rw [show (List.length ∘ fun i => (List.range (i + 1)).map
      (fun j => (⟨2 ^ (i - j), 2 ^ (i + 1)⟩ : BitSorter))) = fun i => i + 1 from ?_]
  · exact range_succ_sum_gauss k
  · funext i
    simp

/-- C9 (amended): for 2 ≤ data_length ≤ 2^30 the sort-stage loop exits
(already from fuel 33 on, enough for the at most 31 iterations from
`dim = 2`) and `get_bit_sorter_stages` returns exactly the bitonic pass
list for `m = 2^k`, k = clog2 data_length, the least power of two
≥ data_length: `dim` ranges over 2, 4, ..., m increasing, within each `dim`
`block` ranges over dim/2, ..., 1 decreasing, with k(k+1)/2 passes in total.
(For data_length > 2^30 the padded input length is ≥ 2^31; the `u32` shift
then wraps `dim` from 2^31 to 0 and the loop never exits.) -/
theorem c9_amended_bitonic_stage_list (data_length : ℕ)
    (h2 : 2 ≤ data_length) (h30 : data_length ≤ 2 ^ 30)
    (fuel : ℕ) (hfuel : 33 ≤ fuel) :
    get_bit_sorter_stages fuel data_length =
      some (bitonic_spec_stages (Nat.clog 2 data_length)) ∧
    data_length ≤ 2 ^ Nat.clog 2 data_length ∧
    (∀ j : ℕ, data_length ≤ 2 ^ j → Nat.clog 2 data_length ≤ j) ∧
    (bitonic_spec_stages (Nat.clog 2 data_length)).length =
      Nat.clog 2 data_length * (Nat.clog 2 data_length + 1) / 2 := by
  have hk30 : Nat.clog 2 data_length ≤ 30 := by
    have := Nat.clog_mono_right 2 h30
    rwa [Nat.clog_pow 2 30 (by norm_num)] at this
  have hc : checked_next_power_of_two data_length = some (2 ^ Nat.clog 2 data_length) := by
    unfold checked_next_power_of_two
    rw [if_pos ?_]
    have h1 : (2 : ℕ) ^ Nat.clog 2 data_length ≤ 2 ^ 30 :=
      Nat.pow_le_pow_right (by norm_num) hk30
    have h2 : (2 : ℕ) ^ 30 ≤ 2 ^ 32 - 1 := by norm_num
    omega
  have hstages : get_bit_sorter_stages fuel data_length =
      some (bitonic_spec_stages (Nat.clog 2 data_length)) := by
    simp only [get_bit_sorter_stages, hc]
    have hmain := bitonic_outer_pow (Nat.clog 2 data_length) hk30
      (Nat.clog 2 data_length) 0 fuel (by omega) (by omega)
    rw [show (2 : ℕ) ^ (0 + 1) = 2 by norm_num] at hmain
    rw [hmain]
    unfold bitonic_spec_stages
    simp
  refine ⟨hstages, Nat.le_pow_clog (by norm_num) _, ?_, bitonic_spec_stages_length _⟩
  intro j hj
  have := Nat.clog_mono_right 2 hj
  rwa [Nat.clog_pow 2 j (by norm_num)] at this

/-- Witness for C9 (amended) at data_length = 300, fuel 33 (k = 9,
45 passes). -/
theorem c9_amended_bitonic_stage_list_witness :
    2 ≤ 300 ∧ 300 ≤ 2 ^ 30 ∧ 33 ≤ 33 ∧
    (get_bit_sorter_stages 33 300 = some (bitonic_spec_stages (Nat.clog 2 300)) ∧
     300 ≤ 2 ^ Nat.clog 2 300 ∧
     (∀ j : ℕ, 300 ≤ 2 ^ j → Nat.clog 2 300 ≤ j) ∧
     (bitonic_spec_stages (Nat.clog 2 300)).length =
      Nat.clog 2 300 * (Nat.clog 2 300 + 1) / 2) :=
  ⟨by norm_num, by norm_num, by norm_num,
   c9_amended_bitonic_stage_list 300 (by norm_num) (by norm_num) 33 (by norm_num)⟩

/-- C9 counterexample: at data_length = 2^30 + 1 — inside the claim's
"every data_length ≥ 2" — the padded input length is 2^31; after the pass
for `dim = 2^31` the `u32` shift wraps `dim` to 0, which never exceeds the
input length, so the loop never exits: the evaluation is `none` at every
fuel, and the function never returns any pass list, let alone the claimed
bitonic network. -/
theorem c9_counterexample_loop_never_exits :
    2 ≤ 2 ^ 30 + 1 ∧
    checked_next_power_of_two (2 ^ 30 + 1) = some (2 ^ 31) ∧
    (∀ fuel : ℕ, get_bit_sorter_stages fuel (2 ^ 30 + 1) = none) := by
  have h1 : Nat.clog 2 (2 ^ 30 + 1) = 31 := by
    have hlo : 30 < Nat.clog 2 (2 ^ 30 + 1) :=
      (Nat.pow_lt_iff_lt_clog (by norm_num)).mp (by norm_num)
    have hhi : Nat.clog 2 (2 ^ 30 + 1) ≤ 31 := by
      have := Nat.clog_mono_right 2 (show (2 ^ 30 + 1 : ℕ) ≤ 2 ^ 31 by norm_num)
      rwa [Nat.clog_pow 2 31 (by norm_num)] at this
    omega
  have hc : checked_next_power_of_two (2 ^ 30 + 1) = some (2 ^ 31) := by
    unfold checked_next_power_of_two
    rw [h1]
    norm_num
  refine ⟨by norm_num, hc, ?_⟩
  intro fuel
  simp only [get_bit_sorter_stages, hc]
  exact bitonic_outer_wrap_spins fuel 2 (Or.inr ⟨1, by norm_num, rfl⟩)

end WaterSandbox
